import Mathlib

/-!
Verification of the token lifecycle manager of `src/tokens.ts`
(`lucia-mongoose-otp`), together with its result wrapper `src/result.ts`.

Timestamps are modelled as integers (milliseconds, the value of
`Date.getTime()` / `Date.now()`), the token store as a list of token
records in insertion order (Mongo `findOne` returns the first match),
and user records as association lists of string fields.  The user store
is an external collaborator reached only through `findOne`, so it is
modelled as an abstract query function, which in particular can exhibit
the backend behaviour the code defends against (returning an arbitrary
record).  Store primitives that can fail (the `create` and `deleteOne`
calls inside `getOrCreate`) are modelled by passing their outcome in.
-/

namespace Tokens

/-- The result wrapper of `src/result.ts`: `Ok<D> | Err<E>`. -/
inductive Result (D E : Type) where
  | ok (data : D)
  | err (error : E)
deriving DecidableEq

/-- A token record (`TokenBase` in `src/tokens.ts`).  `data` is an opaque
payload the manager never inspects; `expiresInMs` is optional, absence
meaning the token never expires; `createdAt` is a millisecond timestamp. -/
structure Token where
  pin : String
  kind : String
  identifier : String
  data : Option String
  expiresInMs : Option Int
  createdAt : Int
deriving DecidableEq

/-- A Mongo user document: an association list of field names to values.
Field lookup is `List.lookup` (first matching key). -/
abbrev UserRec := List (String × String)

/-- The error codes the manager returns (`token_not_found`,
`token_expired`, `user_not_found`, `identifier_value_mismatch`); the two
user errors carry the parsed `{field, value}` identifier. -/
inductive TokenError where
  | token_not_found
  | token_expired
  | user_not_found (field value : String)
  | identifier_value_mismatch (field value : String)
deriving DecidableEq

/-- `isExpired` (lines 35-42 of `src/tokens.ts`): with no `expiresInMs`
the token never expires; otherwise `expiresAt = createdAt + expiresInMs`
and the token is expired iff `expiresAt < Date.now()`. -/
def isExpired (now : Int) (t : Token) : Bool :=
  match t.expiresInMs with
  | none => false
  | some e => decide (t.createdAt + e < now)

/-- The filter `{ identifier, kind }` used by `getOrCreate`. -/
def matchesIdentifierKind (identifier kind : String) (t : Token) : Bool :=
  t.identifier == identifier && t.kind == kind

/-- The filter `{ pin, kind }` used by `validateToken`. -/
def matchesPinKind (pin kind : String) (t : Token) : Bool :=
  t.pin == pin && t.kind == kind

/-- Result of `getOrCreate`: the returned (or thrown, as `err`) value and
the token store afterwards. -/
structure GetOrCreateResult where
  result : Result Token String
  store : List Token
deriving DecidableEq

/-- `getOrCreate` (lines 49-71 of `src/tokens.ts`).  `createRes` is the
outcome of the `create` primitive of the store for this input (the store
assigns `pin` and `createdAt`); `deleteRes` is the outcome of
`existing.deleteOne()`.  In the expired branch the two promises run under
`Promise.all`, which rejects as soon as either rejects, so any rejection
makes the whole call reject; when both reject, `Promise.all` surfaces
whichever settles first — we surface the create error, the choice being
immaterial here.  The store afterwards reflects which primitives
committed. -/
def getOrCreate (now : Int) (identifier kind : String)
    (createRes : Result Token String) (deleteRes : Result Unit String)
    (store : List Token) : GetOrCreateResult :=
  match store.find? (matchesIdentifierKind identifier kind) with
  | some existing =>
    if isExpired now existing then
      match createRes, deleteRes with
      | .ok newToken, .ok _ => ⟨.ok newToken, store.erase existing ++ [newToken]⟩
      | .ok newToken, .err e => ⟨.err e, store ++ [newToken]⟩
      | .err e, .ok _ => ⟨.err e, store.erase existing⟩
      | .err e, .err _ => ⟨.err e, store⟩
    else
      ⟨.ok existing, store⟩
  | none =>
    match createRes with
    | .ok newToken => ⟨.ok newToken, store ++ [newToken]⟩
    | .err e => ⟨.err e, store⟩

/-- Result of `validateToken`: the returned `Result` and the token store
afterwards. -/
structure TokenValidation where
  result : Result Token TokenError
  store : List Token
deriving DecidableEq

/-- `validateToken` (lines 78-95 of `src/tokens.ts`): look up `{pin, kind}`;
not found fails with `token_not_found`; an expired token is deleted and
the call fails with `token_expired`; otherwise the token is returned. -/
def validateToken (now : Int) (pin kind : String) (store : List Token) :
    TokenValidation :=
  match store.find? (matchesPinKind pin kind) with
  | none => ⟨.err .token_not_found, store⟩
  | some token =>
    if isExpired now token then ⟨.err .token_expired, store.erase token⟩
    else ⟨.ok token, store⟩

/-- JS single-character `String.split`: `splitOnChar c l` cuts `l` at every
occurrence of `c`; the result always has at least one (possibly empty)
part, matching `"".split(":") == [""]`. -/
def splitOnChar (c : Char) : List Char → List (List Char)
  | [] => [[]]
  | x :: xs =>
    let rest := splitOnChar c xs
    if x = c then [] :: rest
    else (x :: rest.headD []) :: rest.tail

/-- JS `Array.join` with a single-character separator; `[].join(":") == ""`. -/
def joinWithChar (c : Char) : List (List Char) → List Char
  | [] => []
  | [p] => p
  | p :: ps => p ++ c :: joinWithChar c ps

/-- Identifier parsing (lines 111-112 of `src/tokens.ts`):
`const [idField, ...idRest] = token.identifier.split(":")` and
`value = idRest.join(":")` — i.e. split on the first `:` only. -/
def parseIdentifier (identifier : String) : String × String :=
  (⟨(splitOnChar ':' identifier.data).headD []⟩,
   ⟨joinWithChar ':' (splitOnChar ':' identifier.data).tail⟩)

/-- JS property assignment on an object: replace the value of the first
matching key in place (keeping its position), otherwise append the key
(JS object keys are unique, so at most one entry matches). -/
def setField : UserRec → String → String → UserRec
  | [], k, v => [(k, v)]
  | p :: ps, k, v => if p.1 = k then (k, v) :: ps else p :: setField ps k v

/-- JS object spread `{ ...base, ...ext }`: assign every field of `ext`
onto `base` in order, later assignments overriding earlier ones. -/
def objExtend (base ext : UserRec) : UserRec :=
  ext.foldl (fun acc p => setField acc p.1 p.2) base

/-- The normalisation `const { _id, ...userRest } = rawUser;
{ userId: _id, ...userRest }` (lines 133-137 of `src/tokens.ts`): drop
`_id`, then spread the remaining fields onto `{ userId: _id }`.  A record
without `_id` would give JS `undefined` for `userId`; that corner is
represented by `""` and never relied on (Mongo documents always carry
`_id`). -/
def normalizeUser (rawUser : UserRec) : UserRec :=
  objExtend [("userId", (List.lookup "_id" rawUser).getD "")]
    (rawUser.filter (fun p => p.1 != "_id"))

/-- The success payload of `getTokenUser`:
`{ identifier: { field, value }, user }`. -/
structure TokenUserData where
  field : String
  value : String
  user : UserRec
deriving DecidableEq

/-- `getTokenUser` (lines 109-138 of `src/tokens.ts`).  `findOne` is the
query primitive of the user store (external, possibly misbehaving — Mongo
returns the first document in the collection when the filter value is
`undefined`, which is exactly what the equality re-check guards against).
An absent field reads as JS `undefined`, which is `!==` any string, hence
the `List.lookup … ≠ some value` guard. -/
def getTokenUser (findOne : String → String → Option UserRec)
    (identifier : String) : Result TokenUserData TokenError :=
  match findOne (parseIdentifier identifier).1 (parseIdentifier identifier).2 with
  | none =>
    .err (.user_not_found (parseIdentifier identifier).1 (parseIdentifier identifier).2)
  | some rawUser =>
    if List.lookup (parseIdentifier identifier).1 rawUser ≠ some (parseIdentifier identifier).2 then
      .err (.identifier_value_mismatch (parseIdentifier identifier).1 (parseIdentifier identifier).2)
    else
      .ok ⟨(parseIdentifier identifier).1, (parseIdentifier identifier).2,
        normalizeUser rawUser⟩

/-- Store-passing form of `getTokenUser`, making the effect footprint
explicit: it threads both stores and performs a single user-store read.
`query` is the `findOne` primitive of the user store as a function of
the store contents. -/
def getTokenUserS (query : List UserRec → String → String → Option UserRec)
    (identifier : String) (tokens : List Token) (users : List UserRec) :
    Result TokenUserData TokenError × List Token × List UserRec :=
  match query users (parseIdentifier identifier).1 (parseIdentifier identifier).2 with
  | none =>
    (.err (.user_not_found (parseIdentifier identifier).1 (parseIdentifier identifier).2),
      tokens, users)
  | some rawUser =>
    if List.lookup (parseIdentifier identifier).1 rawUser ≠ some (parseIdentifier identifier).2 then
      (.err (.identifier_value_mismatch (parseIdentifier identifier).1 (parseIdentifier identifier).2),
        tokens, users)
    else
      (.ok ⟨(parseIdentifier identifier).1, (parseIdentifier identifier).2,
        normalizeUser rawUser⟩, tokens, users)

/-- Result of `validateUserToken`: the returned `Result` (success carries
`{ user, token }`) and the token store afterwards. -/
structure UserTokenValidation where
  result : Result (UserRec × Token) TokenError
  store : List Token
deriving DecidableEq

/-- `validateUserToken` (lines 145-160 of `src/tokens.ts`): run
`validateToken`; on failure return it unchanged; otherwise run
`getTokenUser` on the token, deleting the token and propagating the error
on failure, and returning `{ user, token }` on success. -/
def validateUserToken (now : Int) (findOne : String → String → Option UserRec)
    (pin kind : String) (store : List Token) : UserTokenValidation :=
  match (validateToken now pin kind store).result with
  | .err e => ⟨.err e, (validateToken now pin kind store).store⟩
  | .ok token =>
    match getTokenUser findOne token.identifier with
    | .err e => ⟨.err e, ((validateToken now pin kind store).store).erase token⟩
    | .ok u => ⟨.ok (u.user, token), (validateToken now pin kind store).store⟩

/-! ### Claim theorems: validateToken, validateUserToken, getOrCreate, isExpired -/

/-- C1: `validateToken` fails with `token_not_found` when no stored token
matches `(pin, kind)`; when the (first) matching token is expired it
deletes that token from the store and fails with `token_expired`; when it
is not expired it returns that token and leaves the store unchanged. -/
theorem validateToken_spec (now : Int) (pin kind : String) (store : List Token) :
    ((∀ t ∈ store, ¬(t.pin = pin ∧ t.kind = kind)) →
      validateToken now pin kind store = ⟨.err .token_not_found, store⟩) ∧
    ∀ t, store.find? (matchesPinKind pin kind) = some t →
      (isExpired now t = true →
        validateToken now pin kind store = ⟨.err .token_expired, store.erase t⟩) ∧
      (isExpired now t = false →
        validateToken now pin kind store = ⟨.ok t, store⟩) := by
  constructor
  · intro h
    have hf : store.find? (matchesPinKind pin kind) = none := by
      rw [List.find?_eq_none]
      intro x hx hb
      have hpk : x.pin = pin ∧ x.kind = kind := by
        simpa [matchesPinKind] using hb
      exact h x hx hpk
    simp [validateToken, hf]
  · intro t ht
    constructor
    · intro hexp
      simp [validateToken, ht, hexp]
    · intro hexp
      simp [validateToken, ht, hexp]

/-- Witness for C1: on the empty store every lookup misses. -/
theorem validateToken_spec_witness :
    validateToken 0 "p" "k" [] = ⟨.err .token_not_found, []⟩ :=
  (validateToken_spec 0 "p" "k" []).1 (by simp)

/-- C2: `validateUserToken` propagates the error of `validateToken` (and its
store effect) unchanged; when `validateToken` succeeds with a token but
`getTokenUser` fails on it, the token is deleted and the error of
`getTokenUser` returned unchanged; when both succeed it returns `{user, token}`
with the store as `validateToken` left it. -/
theorem validateUserToken_spec (now : Int) (fo : String → String → Option UserRec)
    (pin kind : String) (store : List Token) :
    (∀ e, (validateToken now pin kind store).result = .err e →
      validateUserToken now fo pin kind store =
        ⟨.err e, (validateToken now pin kind store).store⟩) ∧
    ∀ t, (validateToken now pin kind store).result = .ok t →
      (∀ e, getTokenUser fo t.identifier = .err e →
        validateUserToken now fo pin kind store =
          ⟨.err e, ((validateToken now pin kind store).store).erase t⟩) ∧
      ∀ r, getTokenUser fo t.identifier = .ok r →
        validateUserToken now fo pin kind store =
          ⟨.ok (r.user, t), (validateToken now pin kind store).store⟩ := by
  constructor
  · intro e he
    simp [validateUserToken, he]
  · intro t ht
    constructor
    · intro e he
      simp [validateUserToken, ht, he]
    · intro r hr
      simp [validateUserToken, ht, hr]

/-- Witness for C2: empty store, so the `validateToken` error propagates. -/
theorem validateUserToken_spec_witness :
    validateUserToken 0 (fun _ _ => none) "p" "k" [] =
      ⟨.err .token_not_found, []⟩ :=
  (validateUserToken_spec 0 (fun _ _ => none) "p" "k" []).1 .token_not_found (by decide)

/-- C3 counterexample: an expired token for `("e:v", "k")` is replaced;
the create succeeds but the delete fails, and the call fails with the
delete error instead of succeeding with the new token, because
`Promise.all` rejects as soon as either promise rejects. -/
theorem getOrCreate_deleteFailure_cex :
    (getOrCreate 10 "e:v" "k"
        (.ok ⟨"q", "k", "e:v", none, some 5, 10⟩)
        (.err "delete failed")
        [⟨"p", "k", "e:v", none, some 5, 0⟩]).result
      = .err "delete failed" := by decide

/-- C3 amended: in the expired-replacement branch the call succeeds with
the newly created token when both the create and the delete succeed; when
the delete fails the whole call fails with the delete error even though
the create succeeded (the new token may still have been inserted). -/
theorem getOrCreate_expired_replacement (now : Int) (identifier kind : String)
    (newTok : Token) (store : List Token) (t : Token)
    (hfind : store.find? (matchesIdentifierKind identifier kind) = some t)
    (hexp : isExpired now t = true) :
    getOrCreate now identifier kind (.ok newTok) (.ok ()) store =
      ⟨.ok newTok, store.erase t ++ [newTok]⟩ ∧
    ∀ e, getOrCreate now identifier kind (.ok newTok) (.err e) store =
      ⟨.err e, store ++ [newTok]⟩ := by
  constructor
  · simp [getOrCreate, hfind, hexp]
  · intro e
    simp [getOrCreate, hfind, hexp]

/-- Witness for the amended C3: the expired token is replaced when both
store operations succeed. -/
theorem getOrCreate_expired_replacement_witness :
    getOrCreate 10 "e:v" "k" (.ok ⟨"q", "k", "e:v", none, some 5, 10⟩) (.ok ())
        [⟨"p", "k", "e:v", none, some 5, 0⟩] =
      ⟨.ok ⟨"q", "k", "e:v", none, some 5, 10⟩,
        [⟨"q", "k", "e:v", none, some 5, 10⟩]⟩ :=
  (getOrCreate_expired_replacement 10 "e:v" "k"
    ⟨"q", "k", "e:v", none, some 5, 10⟩
    [⟨"p", "k", "e:v", none, some 5, 0⟩]
    ⟨"p", "k", "e:v", none, some 5, 0⟩
    (by decide) (by decide)).1

/-- C4 counterexample: at the boundary `now = createdAt + expiresInMs`
(`createdAt = 0`, `expiresInMs = 5`, `now = 5`) `isExpired` returns
`false`, not `true` as the claim states. -/
theorem isExpired_boundary_cex :
    isExpired 5 ⟨"p", "k", "e:v", none, some 5, 0⟩ = false := by decide

/-- C4 amended: with `expiresInMs` present, `isExpired` returns `true`
exactly when `now > createdAt + expiresInMs`; at the boundary
`now = createdAt + expiresInMs` it returns `false` (equal time counts as
not yet expired, per the strict `<` comparison). -/
theorem isExpired_iff_strictly_past (now : Int) (t : Token) (e : Int)
    (he : t.expiresInMs = some e) :
    (isExpired now t = true ↔ t.createdAt + e < now) ∧
    (now = t.createdAt + e → isExpired now t = false) := by
  constructor
  · simp [isExpired, he]
  · intro hb
    simp [isExpired, he, hb]

/-- Witness for the amended C4: strictly past the expiry instant the
token is expired. -/
theorem isExpired_iff_strictly_past_witness :
    isExpired 7 ⟨"p", "k", "e:v", none, some 5, 0⟩ = true :=
  ((isExpired_iff_strictly_past 7 ⟨"p", "k", "e:v", none, some 5, 0⟩ 5 rfl).1).mpr
    (by decide)

/-- C5: `isExpired` returns `false` whenever `expiresInMs` is absent,
regardless of `createdAt`; with `expiresInMs` present it returns `true`
iff `createdAt + expiresInMs` is strictly before `now`; and it depends
only on `(createdAt, expiresInMs)` and `now`. -/
theorem isExpired_spec (now : Int) (t : Token) :
    (t.expiresInMs = none → isExpired now t = false) ∧
    (∀ e, t.expiresInMs = some e →
      (isExpired now t = true ↔ t.createdAt + e < now)) ∧
    ∀ t' : Token, t'.createdAt = t.createdAt → t'.expiresInMs = t.expiresInMs →
      isExpired now t' = isExpired now t := by
  refine ⟨?_, ?_, ?_⟩
  · intro h
    simp [isExpired, h]
  · intro e he
    simp [isExpired, he]
  · intro t' hc he
    simp [isExpired, hc, he]

/-- Witness for C5: a token without `expiresInMs` is never expired. -/
theorem isExpired_spec_witness :
    isExpired 1000000 ⟨"p", "k", "e:v", none, none, 37⟩ = false :=
  (isExpired_spec 1000000 ⟨"p", "k", "e:v", none, none, 37⟩).1 rfl

/-- C6: when `getOrCreate` finds an unexpired token for
`(identifier, kind)` it returns it and leaves the store unchanged; hence
a second sequential call returns the same token, and a store holding
exactly one token for that key still holds exactly one afterwards. -/
theorem getOrCreate_unexpired_spec (now : Int) (identifier kind : String)
    (cr1 cr2 : Result Token String) (dr1 dr2 : Result Unit String)
    (store : List Token) (t : Token)
    (hfind : store.find? (matchesIdentifierKind identifier kind) = some t)
    (hexp : isExpired now t = false) :
    getOrCreate now identifier kind cr1 dr1 store = ⟨.ok t, store⟩ ∧
    getOrCreate now identifier kind cr2 dr2
      (getOrCreate now identifier kind cr1 dr1 store).store = ⟨.ok t, store⟩ ∧
    (store.countP (matchesIdentifierKind identifier kind) = 1 →
      ((getOrCreate now identifier kind cr2 dr2
        (getOrCreate now identifier kind cr1 dr1 store).store).store.countP
          (matchesIdentifierKind identifier kind)) = 1) := by
  have h1 : getOrCreate now identifier kind cr1 dr1 store = ⟨.ok t, store⟩ := by
    simp [getOrCreate, hfind, hexp]
  have hs : (getOrCreate now identifier kind cr1 dr1 store).store = store := by
    rw [h1]
  have h2 : getOrCreate now identifier kind cr2 dr2 store = ⟨.ok t, store⟩ := by
    simp [getOrCreate, hfind, hexp]
  refine ⟨h1, ?_, ?_⟩
  · rw [hs, h2]
  · intro hc
    rw [hs, h2]
    exact hc

/-- Witness for C6: a singleton store holding an unexpired token. -/
theorem getOrCreate_unexpired_spec_witness :
    getOrCreate 0 "e:v" "k" (.err "down") (.err "down")
        [⟨"p", "k", "e:v", none, none, 0⟩] =
      ⟨.ok ⟨"p", "k", "e:v", none, none, 0⟩,
        [⟨"p", "k", "e:v", none, none, 0⟩]⟩ :=
  (getOrCreate_unexpired_spec 0 "e:v" "k" (.err "down") (.err "down2")
    (.err "down") (.err "down2")
    [⟨"p", "k", "e:v", none, none, 0⟩]
    ⟨"p", "k", "e:v", none, none, 0⟩
    (by decide) (by decide)).1

/-! ### Association-list lemmas for the user normalisation -/

theorem lookup_setField_self (u : UserRec) (k v : String) :
    List.lookup k (setField u k v) = some v := by
  induction u with
  | nil => simp [setField, List.lookup_cons]
  | cons p ps ih =>
    obtain ⟨p1, p2⟩ := p
    by_cases h : p1 = k
    · simp [setField, h, List.lookup_cons]
    · have hb : (k == p1) = false := by
        simp only [beq_eq_false_iff_ne]
        exact fun hh => h hh.symm
      simp [setField, h, List.lookup_cons, hb, ih]

theorem lookup_setField_ne (u : UserRec) (k v kq : String) (h : kq ≠ k) :
    List.lookup kq (setField u k v) = List.lookup kq u := by
  have hb : (kq == k) = false := by
    simp only [beq_eq_false_iff_ne]
    exact h
  induction u with
  | nil => simp [setField, List.lookup_cons, hb]
  | cons p ps ih =>
    obtain ⟨p1, p2⟩ := p
    by_cases hp : p1 = k
    · have hb2 : (kq == p1) = false := by
        simp only [beq_eq_false_iff_ne]
        rw [hp]
        exact h
      simp [setField, hp, List.lookup_cons, hb, hb2]
    · simp [setField, hp, List.lookup_cons, ih]

theorem lookup_eq_none_of_keys (u : UserRec) (k : String)
    (h : k ∉ u.map Prod.fst) : List.lookup k u = none := by
  induction u with
  | nil => rfl
  | cons p ps ih =>
    obtain ⟨p1, p2⟩ := p
    simp only [List.map_cons, List.mem_cons, not_or] at h
    have hb : (k == p1) = false := by
      simp only [beq_eq_false_iff_ne]
      exact h.1
    rw [List.lookup_cons, hb]
    exact ih h.2

theorem lookup_objExtend (ext : UserRec) (hn : (ext.map Prod.fst).Nodup) :
    ∀ (base : UserRec) (k : String),
      List.lookup k (objExtend base ext) =
        match List.lookup k ext with
        | some v => some v
        | none => List.lookup k base := by
  induction ext with
  | nil =>
    intro base k
    rfl
  | cons a es ih =>
    intro base k
    rw [List.map_cons] at hn
    obtain ⟨hmem, hn2⟩ := List.nodup_cons.mp hn
    have step : objExtend base (a :: es) = objExtend (setField base a.1 a.2) es := rfl
    rw [step, ih hn2]
    obtain ⟨a1, a2⟩ := a
    by_cases hk : a1 = k
    · subst hk
      rw [lookup_eq_none_of_keys es a1 hmem]
      rw [List.lookup_cons]
      simp [lookup_setField_self]
    · have ha : (k == a1) = false := by
        simp only [beq_eq_false_iff_ne]
        exact fun hh => hk hh.symm
      rw [List.lookup_cons, ha]
      cases List.lookup k es with
      | none => simp [lookup_setField_ne base a1 a2 k (fun hh => hk hh.symm)]
      | some w => rfl

theorem keys_filter_nodup (u : UserRec) (hn : (u.map Prod.fst).Nodup)
    (kRem : String) :
    (((u.filter (fun p => p.1 != kRem)).map Prod.fst)).Nodup :=
  hn.sublist (List.Sublist.map Prod.fst (List.filter_sublist u))

theorem lookup_filter_key_removed (u : UserRec) (kRem : String) :
    List.lookup kRem (u.filter (fun p => p.1 != kRem)) = none := by
  induction u with
  | nil => rfl
  | cons p ps ih =>
    obtain ⟨p1, p2⟩ := p
    by_cases hp : p1 = kRem
    · simp [List.filter_cons, hp, ih]
    · have hb : (kRem == p1) = false := by
        simp only [beq_eq_false_iff_ne]
        exact fun hh => hp hh.symm
      simp [List.filter_cons, hp, List.lookup_cons, hb, ih]

theorem lookup_filter_key_kept (u : UserRec) (kRem k : String) (h : k ≠ kRem) :
    List.lookup k (u.filter (fun p => p.1 != kRem)) = List.lookup k u := by
  induction u with
  | nil => rfl
  | cons p ps ih =>
    obtain ⟨p1, p2⟩ := p
    by_cases hp : p1 = kRem
    · have hb : (k == kRem) = false := by
        simp only [beq_eq_false_iff_ne]
        exact h
      simp [List.filter_cons, hp, List.lookup_cons, hb, ih]
    · by_cases hq : k = p1
      · simp [List.filter_cons, hp, List.lookup_cons, hq]
      · have hb : (k == p1) = false := by
          simp only [beq_eq_false_iff_ne]
          exact hq
        simp [List.filter_cons, hp, List.lookup_cons, hb, ih]

/-! ### Split / join lemmas for identifier parsing -/

theorem splitOnChar_ne_nil (c : Char) (l : List Char) : splitOnChar c l ≠ [] := by
  cases l with
  | nil => simp [splitOnChar]
  | cons x xs =>
    by_cases h : x = c
    · simp [splitOnChar, h]
    · simp [splitOnChar, h]

theorem splitOnChar_append_sep (c : Char) (f v : List Char) (hf : c ∉ f) :
    splitOnChar c (f ++ c :: v) = f :: splitOnChar c v := by
  induction f with
  | nil => simp [splitOnChar]
  | cons x fs ih =>
    have hx : ¬(x = c) := fun hh => hf (by simp [hh])
    have hfs : c ∉ fs := fun hh => hf (by simp [hh])
    simp [splitOnChar, hx, ih hfs]

theorem joinWithChar_splitOnChar (c : Char) (v : List Char) :
    joinWithChar c (splitOnChar c v) = v := by
  induction v with
  | nil => rfl
  | cons x xs ih =>
    obtain ⟨hh, ht, hs⟩ : ∃ hh ht, splitOnChar c xs = hh :: ht := by
      cases hs : splitOnChar c xs with
      | nil => exact absurd hs (splitOnChar_ne_nil c xs)
      | cons hh ht => exact ⟨hh, ht, rfl⟩
    by_cases hx : x = c
    · subst hx
      rw [hs] at ih
      simp only [splitOnChar, if_pos rfl, hs]
      cases ht with
      | nil =>
        simp [joinWithChar] at ih ⊢
        simp [ih]
      | cons t1 t2 =>
        simp [joinWithChar] at ih ⊢
        simp [ih]
    · rw [hs] at ih
      simp only [splitOnChar, if_neg hx, hs]
      cases ht with
      | nil =>
        simp only [joinWithChar, List.headD, List.tail] at ih ⊢
        simp [ih]
      | cons t1 t2 =>
        simp only [joinWithChar, List.headD, List.tail] at ih ⊢
        rw [← ih]
        simp

/-! ### Claim theorems: getTokenUser -/

/-- C7: when the user store returns a record whose value at the parsed
field is not exactly the parsed value, `getTokenUser` fails with
`identifier_value_mismatch` carrying the parsed field and value. -/
theorem getTokenUser_mismatch (fo : String → String → Option UserRec)
    (identifier : String) (u : UserRec)
    (hq : fo (parseIdentifier identifier).1 (parseIdentifier identifier).2 = some u)
    (hne : List.lookup (parseIdentifier identifier).1 u ≠
      some (parseIdentifier identifier).2) :
    getTokenUser fo identifier =
      .err (.identifier_value_mismatch (parseIdentifier identifier).1
        (parseIdentifier identifier).2) := by
  unfold getTokenUser
  rw [hq]
  exact if_pos hne

/-- Witness for C7: the store answers the `email = "a"` query with a
record whose `email` field is `"b"`. -/
theorem getTokenUser_mismatch_witness :
    getTokenUser (fun _ _ => some [("email", "b")]) "email:a" =
      .err (.identifier_value_mismatch "email" "a") :=
  getTokenUser_mismatch (fun _ _ => some [("email", "b")]) "email:a"
    [("email", "b")] rfl (by decide)

/-- C9: identifier parsing splits on the first colon only: for any field
(no colon) and any value (colons allowed), `"field:value"` parses to that
pair; in particular for the two documented examples. -/
theorem parseIdentifier_first_colon (f v : List Char) (hf : ':' ∉ f) :
    parseIdentifier ⟨f ++ ':' :: v⟩ = (⟨f⟩, ⟨v⟩) ∧
    parseIdentifier "email:a@example.com" = ("email", "a@example.com") ∧
    parseIdentifier "meta:a:b" = ("meta", "a:b") := by
  refine ⟨?_, by decide, by decide⟩
  unfold parseIdentifier
  rw [show (String.mk (f ++ ':' :: v)).data = f ++ ':' :: v from rfl]
  rw [splitOnChar_append_sep ':' f v hf]
  simp [joinWithChar_splitOnChar]

/-- Witness for C9: `"a:b:c"` parses to field `"a"`, value `"b:c"`. -/
theorem parseIdentifier_first_colon_witness :
    parseIdentifier ⟨['a', ':', 'b', ':', 'c']⟩ =
      (⟨['a']⟩, ⟨['b', ':', 'c']⟩) :=
  (parseIdentifier_first_colon ['a'] ['b', ':', 'c'] (by decide)).1

/-- C10: `getTokenUser` touches neither store on any outcome: the
store-passing form returns both stores unchanged, and its result is the
pure `getTokenUser` of the query applied to the user store. -/
theorem getTokenUserS_frame (q : List UserRec → String → String → Option UserRec)
    (identifier : String) (tokens : List Token) (users : List UserRec) :
    (getTokenUserS q identifier tokens users).2 = (tokens, users) ∧
    (getTokenUserS q identifier tokens users).1 =
      getTokenUser (q users) identifier := by
  unfold getTokenUserS getTokenUser
  cases hq : q users (parseIdentifier identifier).1 (parseIdentifier identifier).2 with
  | none => simp
  | some rawUser =>
    by_cases hm : List.lookup (parseIdentifier identifier).1 rawUser ≠
        some (parseIdentifier identifier).2
    · simp [hm]
    · simp [hm]

/-- C8 counterexample: a record that itself contains a `userId` field.
The spread `{ userId: _id, ...userRest }` puts `userRest` last, so the
record field `userId = "X"` overrides `_id = "1"`: the returned user has
`userId = "X"`, not the `_id` of the record, falsifying the claim for
this record even though `getTokenUser` succeeds on it. -/
theorem getTokenUser_userId_override_cex :
    getTokenUser (fun _ _ => some [("_id", "1"), ("email", "a"), ("userId", "X")])
        "email:a" =
      .ok ⟨"email", "a", [("userId", "X"), ("email", "a")]⟩ ∧
    List.lookup "userId" [("userId", "X"), ("email", "a")] ≠
      List.lookup "_id" [("_id", "1"), ("email", "a"), ("userId", "X")] := by
  decide

/-- C8 amended: for every record on which `getTokenUser` succeeds that
carries an `_id` field and no field named `userId`, the returned user
has `userId` equal to the `_id` of the record, has no `_id` field, and
every other original field appears unchanged.  (When the record itself
contains a `userId` field, the spread lets that field override `_id`.) -/
theorem getTokenUser_normalizes (fo : String → String → Option UserRec)
    (identifier : String) (u : UserRec)
    (hq : fo (parseIdentifier identifier).1 (parseIdentifier identifier).2 = some u)
    (hm : List.lookup (parseIdentifier identifier).1 u =
      some (parseIdentifier identifier).2)
    (hn : (u.map Prod.fst).Nodup)
    (hnoUid : List.lookup "userId" u = none)
    (hid : List.lookup "_id" u ≠ none) :
    getTokenUser fo identifier =
      .ok ⟨(parseIdentifier identifier).1, (parseIdentifier identifier).2,
        normalizeUser u⟩ ∧
    List.lookup "userId" (normalizeUser u) = List.lookup "_id" u ∧
    List.lookup "_id" (normalizeUser u) = none ∧
    ∀ k, k ≠ "_id" → (List.lookup k u).isSome →
      List.lookup k (normalizeUser u) = List.lookup k u := by
  have hnf : (((u.filter (fun p => p.1 != "_id")).map Prod.fst)).Nodup :=
    keys_filter_nodup u hn "_id"
  have hext := lookup_objExtend (u.filter (fun p => p.1 != "_id")) hnf
  obtain ⟨i, hi⟩ := Option.ne_none_iff_exists'.mp hid
  refine ⟨?_, ?_, ?_, ?_⟩
  · unfold getTokenUser
    rw [hq]
    have hdn : ¬(List.lookup (parseIdentifier identifier).1 u ≠
        some (parseIdentifier identifier).2) := by
      simp [hm]
    exact if_neg hdn
  · unfold normalizeUser
    rw [hext]
    rw [lookup_filter_key_kept u "_id" "userId" (by decide)]
    rw [hnoUid, hi]
    simp [List.lookup_cons]
  · unfold normalizeUser
    rw [hext]
    rw [lookup_filter_key_removed]
    have hb : ("_id" == "userId") = false := by decide
    simp [List.lookup_cons, hb]
  · intro k hk hks
    unfold normalizeUser
    rw [hext]
    obtain ⟨w, hw⟩ := Option.isSome_iff_exists.mp hks
    rw [lookup_filter_key_kept u "_id" k hk, hw]

/-- Witness for the amended C8: a well-formed record
`{_id: "7", email: "a"}` is returned as `{userId: "7", email: "a"}`. -/
theorem getTokenUser_normalizes_witness :
    getTokenUser (fun _ _ => some [("_id", "7"), ("email", "a")]) "email:a" =
      .ok ⟨"email", "a", [("userId", "7"), ("email", "a")]⟩ :=
  (getTokenUser_normalizes (fun _ _ => some [("_id", "7"), ("email", "a")])
    "email:a" [("_id", "7"), ("email", "a")] rfl (by decide) (by decide)
    (by decide) (by decide)).1

end Tokens
